import Mathlib

/-!
Verification of the compression-method negotiation and tar-invocation logic of
the gcs-cache action (source: the tar wrapper module).

The TypeScript source is shallowly embedded:
  * probe stdout text is a `List Char`; `String.toLowerCase`, `String.trim`,
    `String.includes` and the version-extraction regexes are embedded as
    executable list functions;
  * the `exec.getExecOutput(..., { ignoreReturnCode: true }).then(...).catch(...)`
    pipeline is embedded as a function of an `ExecOutcome` (the promise either
    resolves with the captured stdout and exit code, or rejects — binary missing
    and similar spawn failures — which the attached `.catch` maps to `("", null)`);
  * the npm `semver` package's `lt` is embedded following its documented
    behaviour: both arguments are parsed as strict three-component semantic
    versions (`X.Y.Z`, numeric identifiers without leading zeros and at most
    `Number.MAX_SAFE_INTEGER`), and an argument that does not parse makes it
    throw `TypeError("Invalid Version: <v>")`, modelled as `Except.error`;
  * `exec.exec("tar", args)` with default options (no `ignoreReturnCode`, no
    output listeners) resolves on exit code 0 and otherwise rejects with the
    generic error `The process <tool> failed with exit code <n>`; nothing the
    process writes is captured.  (Quotation marks around the tool name in the
    real message are elided here.)
-/

namespace GcsCache

/-- The `CompressionMethod` string enum of the source. -/
inductive CompressionMethod where
  | GZIP
  | ZSTD_WITHOUT_LONG
  | ZSTD
  | LZ4
deriving DecidableEq, Repr

/-- The runtime string value of each enum member
(`gzip`, `zstd (without long)`, `zstd`, `lz4`). -/
def CompressionMethod.str : CompressionMethod → String
  | .GZIP => "gzip"
  | .ZSTD_WITHOUT_LONG => "zstd (without long)"
  | .ZSTD => "zstd"
  | .LZ4 => "lz4"

/-- Outcome of an `exec.getExecOutput(tool, ["--version"], { ignoreReturnCode:
true, silent: true })` call: the promise resolves with the captured stdout and
exit code (also on a non-zero exit, because of `ignoreReturnCode`), or rejects
(binary not found or other spawn failure). -/
inductive ExecOutcome where
  | success (stdout : List Char) (exitCode : Int)
  | failure
deriving DecidableEq, Repr

/-- JavaScript `String.prototype.trim` whitespace (the ASCII part; the probe
outputs involved are ASCII). -/
def isJsWhitespace (c : Char) : Bool :=
  c == ' ' || c == '\t' || c == '\n' || c == '\r' || c == '\x0b' || c == '\x0c'

/-- `String.prototype.trim`: strip leading and trailing whitespace. -/
def jsTrim (l : List Char) : List Char :=
  ((l.dropWhile isJsWhitespace).reverse.dropWhile isJsWhitespace).reverse

/-- `String.prototype.toLowerCase` (ASCII case mapping, which covers the probe
signatures involved). -/
def lowerAscii (l : List Char) : List Char :=
  l.map Char.toLower

/-- `'zstd command line interface'`, the substring the zstd probe looks for. -/
def sigZstd : List Char := "zstd command line interface".toList

/-- `'lz4 command line interface'`, the substring the lz4 probe looks for. -/
def sigLz4 : List Char := "lz4 command line interface".toList

/-- `String.prototype.includes`: `needle` occurs as a contiguous run in
`hay`. -/
def containsSeq (needle : List Char) : List Char → Bool
  | [] => needle.isEmpty
  | c :: rest => needle.isPrefixOf (c :: rest) || containsSeq needle rest

/-- `out.toLowerCase().includes('zstd command line interface')`. -/
def hasZstdSig (out : List Char) : Bool :=
  containsSeq sigZstd (lowerAscii out)

/-- `out.toLowerCase().includes('lz4 command line interface')`. -/
def hasLz4Sig (out : List Char) : Bool :=
  containsSeq sigLz4 (lowerAscii out)

/-- Maximal leading run of decimal digits (regex `\d+`, greedy):
returns the run and the rest of the list. -/
def digitSpan : List Char → List Char × List Char
  | [] => ([], [])
  | c :: rest =>
    if c.isDigit then (c :: (digitSpan rest).1, (digitSpan rest).2)
    else ([], c :: rest)

/-- Greedy match of `(?:\.\d+)*` at the head of the list, fuel-bounded; each
iteration consumes at least two characters, so fuel = list length suffices. -/
def dotNumTailF : Nat → List Char → List Char
  | 0, _ => []
  | _ + 1, [] => []
  | f + 1, c :: rest =>
    if c = '.' ∧ (digitSpan rest).1.isEmpty = false then
      c :: (digitSpan rest).1 ++ dotNumTailF f (digitSpan rest).2
    else []

/-- Greedy match of `(?:\.\d+)*` at the head of the list. -/
def dotNumTail (l : List Char) : List Char :=
  dotNumTailF l.length l

/-- Whether the greedy match of `\d+(?:\.\d+)*` would continue past this
point: the following text starts with a digit (extending the current numeric
run) or with a dot followed by a digit (starting a further dot-group).  Text
with `extendsNum = false` after a version token leaves the token as matched. -/
def extendsNum : List Char → Bool
  | [] => false
  | [c] => c.isDigit
  | c :: d :: _ => c.isDigit || (c == '.' && d.isDigit)

/-- Dot-prefixed concatenation of dot-groups: `dotsList [bs, cs]` is
`.<bs>.<cs>`, so a version token with component list `as :: comps` reads
`as ++ dotsList comps`. -/
def dotsList : List (List Char) → List Char
  | [] => []
  | d :: rest => '.' :: (d ++ dotsList rest)

/-- The zstd probe's `/v(\d+(?:\.\d+){0,})/.exec(out)` capture group: scan for
the first position holding `v` followed by at least one digit, and greedily
capture `\d+(?:\.\d+)*` from there. -/
def zstdExtractVersion : List Char → Option (List Char)
  | [] => none
  | c :: rest =>
    if c = 'v' ∧ (digitSpan rest).1.isEmpty = false then
      some ((digitSpan rest).1 ++ dotNumTail (digitSpan rest).2)
    else zstdExtractVersion rest

/-- Whether the text holds a version token in the sense of the zstd probe's
regex: some `v` immediately followed by a digit. -/
def hasVDigit : List Char → Bool
  | [] => false
  | c :: rest =>
    if c = 'v' ∧ (digitSpan rest).1.isEmpty = false then true
    else hasVDigit rest

/-- Split a list of characters on `.` (used to model semver parsing of the
digits-and-dots tokens the probe regex produces). -/
def splitOnDot : List Char → List (List Char)
  | [] => [[]]
  | c :: rest =>
    if c = '.' then [] :: splitOnDot rest
    else (c :: (splitOnDot rest).headD []) :: (splitOnDot rest).tail

/-- Decimal value of a digit string. -/
def digitsToNat (l : List Char) : Nat :=
  l.foldl (fun acc c => acc * 10 + (c.toNat - 48)) 0

/-- `Number.MAX_SAFE_INTEGER`, the bound node-semver places on each numeric
identifier. -/
def maxSafeInteger : Nat := 9007199254740991

/-- A valid semver numeric identifier: non-empty digits, no leading zero,
at most `Number.MAX_SAFE_INTEGER`. -/
def validNumId (l : List Char) : Bool :=
  !l.isEmpty && l.all Char.isDigit &&
    (l.length == 1 || l.headD '0' != '0') &&
    decide (digitsToNat l ≤ maxSafeInteger)

/-- node-semver's (strict) parse, restricted to the digits-and-dots tokens the
probe regex can produce: exactly three valid numeric identifiers separated by
dots; anything else is rejected (and makes `semver.lt` throw). -/
def parseSemver (l : List Char) : Option (Nat × Nat × Nat) :=
  match splitOnDot l with
  | [a, b, c] =>
    if validNumId a && validNumId b && validNumId c then
      some (digitsToNat a, digitsToNat b, digitsToNat c)
    else none
  | _ => none

/-- Lexicographic order on parsed three-component versions (node-semver
`compare` restricted to versions without prerelease identifiers, which is all
the probe tokens can be). -/
def tripleLt : Nat × Nat × Nat → Nat × Nat × Nat → Bool
  | (a1, b1, c1), (a2, b2, c2) =>
    a1 < a2 || (a1 == a2 && (b1 < b2 || (b1 == b2 && c1 < c2)))

/-- The message of the `TypeError` node-semver throws on an invalid version. -/
def invalidVersionMsg (v : List Char) : String :=
  "Invalid Version: " ++ String.mk v

/-- `semver.lt(a, b)`: parse both sides, throwing (`Except.error`) on a version
that is not a strict three-component semver. -/
def semverLt (a b : List Char) : Except String Bool :=
  match parseSemver a with
  | none => .error (invalidVersionMsg a)
  | some x =>
    match parseSemver b with
    | none => .error (invalidVersionMsg b)
    | some y => .ok (tripleLt x y)

/-- The `ZSTD_WITHOUT_LONG_VERSION = '1.3.2'` constant of the source. -/
def ZSTD_WITHOUT_LONG_VERSION : List Char := "1.3.2".toList

/-- `possibleWithZstd`: run `zstd --version`; on a rejected exec promise the
`.catch` yields `("", null)` and the empty output lacks the signature, so the
result is `null` (embedded here directly as the `failure` branch).  On a
resolved promise the trimmed stdout is checked for the CLI signature; without
it the result is `null`; with it, a missing version token gives
`ZSTD_WITHOUT_LONG`, and otherwise `semver.lt(token, '1.3.2')` decides between
`ZSTD_WITHOUT_LONG` and `ZSTD` — note that this call sits outside the
`.catch`, so an invalid token makes the whole probe reject. -/
def possibleWithZstd (o : ExecOutcome) : Except String (Option CompressionMethod) :=
  match o with
  | .failure => .ok none
  | .success stdout _ =>
    if hasZstdSig (jsTrim stdout) then
      match zstdExtractVersion (jsTrim stdout) with
      | none => .ok (some CompressionMethod.ZSTD_WITHOUT_LONG)
      | some v =>
        match semverLt v ZSTD_WITHOUT_LONG_VERSION with
        | .error e => .error e
        | .ok true => .ok (some CompressionMethod.ZSTD_WITHOUT_LONG)
        | .ok false => .ok (some CompressionMethod.ZSTD)
    else .ok none

/-- `possibleWithLz4`: run `lz4 --version`; a rejected exec promise is caught
(`("", null)`, no signature, hence `null`); otherwise `LZ4` exactly when the
trimmed, lowercased stdout holds the CLI signature.  (The source also extracts
a version into `_lz4Version` but never reads it.) -/
def possibleWithLz4 (o : ExecOutcome) : Option CompressionMethod :=
  match o with
  | .failure => none
  | .success stdout _ =>
    if hasLz4Sig (jsTrim stdout) then some CompressionMethod.LZ4 else none

/-- Record of which probe subprocesses a negotiation run spawned, in order. -/
inductive ProbeCall where
  | lz4call
  | zstdcall
deriving DecidableEq, Repr

/-- The environment `getTarCompressionMethod` reads: `process.platform`, the
configured `state.compressionMethod` (the raw input string; empty when unset —
`state.ts` is outside the sources, so the preference is taken as an input), and
the outcomes of the two probe commands. -/
structure Env where
  platform : String
  compressionMethod : String
  lz4Exec : ExecOutcome
  zstdExec : ExecOutcome

/-- `getTarCompressionMethod`, instrumented with the list of probe commands it
spawns: Windows and an explicit `gzip` preference return before any probe; then
the lz4 probe runs and its (necessarily `LZ4`) value is returned when present
and the preference is `lz4`; then the zstd probe runs and its value, when
present, is returned; otherwise `GZIP`.  A rejection of the zstd probe
propagates. -/
def getTarCompressionMethod (env : Env) : Except String (CompressionMethod × List ProbeCall) :=
  if env.platform = "win32" then .ok (CompressionMethod.GZIP, [])
  else if env.compressionMethod = "gzip" then .ok (CompressionMethod.GZIP, [])
  else
    if h : (possibleWithLz4 env.lz4Exec).isSome = true ∧ env.compressionMethod = "lz4" then
      .ok ((possibleWithLz4 env.lz4Exec).get h.1, [ProbeCall.lz4call])
    else
      match possibleWithZstd env.zstdExec with
      | .error e => .error e
      | .ok (some m) => .ok (m, [ProbeCall.lz4call, ProbeCall.zstdcall])
      | .ok none => .ok (CompressionMethod.GZIP, [ProbeCall.lz4call, ProbeCall.zstdcall])

/-- `buildCompressionArgs`. -/
def buildCompressionArgs : CompressionMethod → List String
  | .GZIP => ["-z"]
  | .ZSTD_WITHOUT_LONG => ["--use-compress-program", "zstd -T0"]
  | .ZSTD => ["--use-compress-program", "zstd -T0 --long=30"]
  | .LZ4 => ["--use-compress-program", "lz4 --fast -BD"]

/-- `buildDecompressionArgs` on the enum type (the four reachable cases of the
source's `switch`). -/
def buildDecompressionArgs : CompressionMethod → List String
  | .GZIP => ["-z"]
  | .ZSTD_WITHOUT_LONG => ["--use-compress-program", "zstd -d"]
  | .ZSTD => ["--use-compress-program", "zstd -d --long=30"]
  | .LZ4 => ["--use-compress-program", "lz4 -d"]

/-- `buildDecompressionArgs` as it executes at runtime: TypeScript enums are
plain strings at runtime and the method tag reaching `extractTar` comes from
persisted metadata, so it can be any string.  The `switch` has no `default`
case; a tag matching none of the four literals falls through every case and
the function returns `undefined`, modelled as `none`. -/
def buildDecompressionArgsRt (method : String) : Option (List String) :=
  if method = "gzip" then some ["-z"]
  else if method = "zstd (without long)" then some ["--use-compress-program", "zstd -d"]
  else if method = "zstd" then some ["--use-compress-program", "zstd -d --long=30"]
  else if method = "lz4" then some ["--use-compress-program", "lz4 -d"]
  else none

/-- The argument vector `createTar` passes to `tar`. -/
def createTarArgs (m : CompressionMethod) (archivePath cwd : String)
    (paths : List String) : List String :=
  ["-c"] ++ buildCompressionArgs m ++ ["--posix", "-P", "-f", archivePath, "-C", cwd] ++ paths

/-- The argument vector `extractTar` passes to `tar` (for a known method). -/
def extractTarArgs (m : CompressionMethod) (archivePath cwd : String) : List String :=
  ["-x"] ++ buildDecompressionArgs m ++ ["-P", "-f", archivePath, "-C", cwd]

/-- What the spawned `tar` process does: its exit code and whatever diagnostic
text it writes to its streams (which `exec.exec`, called with default options,
streams to the surrounding log and does not capture). -/
structure TarRun where
  exitCode : Int
  diagnosticOutput : String
deriving DecidableEq, Repr

/-- The message of the error `@actions/exec`'s `exec` rejects with on a
non-zero exit (quotation marks around the tool name elided). -/
def execFailMsg (tool : String) (code : Int) : String :=
  "The process " ++ tool ++ " failed with exit code " ++ toString code

/-- `exec.exec(tool, args)` with default options: resolves on exit code 0,
otherwise rejects with the generic process-failure error.  The argument vector
is what the process is spawned with; only the exit code determines the result,
and the process output is streamed, not captured. -/
def execExec (tool : String) (_args : List String) (run : TarRun) : Except String Unit :=
  if run.exitCode = 0 then .ok () else .error (execFailMsg tool run.exitCode)

/-- `createTar`: negotiate a method, spawn `tar` with the creation argument
vector, and return the method used.  (The informational `console.log` is not
modelled.)  A rejection of the negotiation or of the `tar` process propagates. -/
def createTar (env : Env) (archivePath : String) (paths : List String) (cwd : String)
    (run : TarRun) : Except String CompressionMethod :=
  match getTarCompressionMethod env with
  | .error e => .error e
  | .ok (m, _) =>
    match execExec "tar" (createTarArgs m archivePath cwd paths) run with
    | .error e => .error e
    | .ok _ => .ok m

/-- The message of the `TypeError` JavaScript throws when `extractTar` spreads
the `undefined` returned by `buildDecompressionArgs` for an unknown tag into
the argument array. -/
def spreadTypeErrorMsg : String := "TypeError: compressionArgs is not iterable"

/-- `extractTar` at runtime: the persisted method tag is a string; a known tag
selects the decompression flags and spawns `tar`, an unknown tag leaves the
flag list `undefined` and the array spread building the `tar` argument vector
throws a `TypeError` before any process is spawned. -/
def extractTar (compressionMethod : String) (archivePath cwd : String)
    (run : TarRun) : Except String Unit :=
  match buildDecompressionArgsRt compressionMethod with
  | none => .error spreadTypeErrorMsg
  | some cargs =>
    execExec "tar" (["-x"] ++ cargs ++ ["-P", "-f", archivePath, "-C", cwd]) run

/-! ### Helper lemmas about the embedded scanners -/

theorem digitSpan_append (ds l : List Char) (hd : ds.all Char.isDigit = true)
    (hl : ∀ c, l.head? = some c → c.isDigit = false) :
    digitSpan (ds ++ l) = (ds, l) := by
  induction ds with
  | nil =>
    cases l with
    | nil => rfl
    | cons c rest => simp [digitSpan, hl c rfl]
  | cons c ds ih =>
    simp only [List.all_cons, Bool.and_eq_true] at hd
    simp [digitSpan, hd.1, ih hd.2]

theorem digitSpan_fst_nil (l : List Char)
    (h : ∀ c, l.head? = some c → c.isDigit = false) :
    digitSpan l = ([], l) := by
  cases l with
  | nil => rfl
  | cons c rest => simp [digitSpan, h c rfl]

theorem digitSpan_isEmpty_append (l r : List Char)
    (hr : ∀ c, r.head? = some c → c.isDigit = false) :
    (digitSpan (l ++ r)).1.isEmpty = (digitSpan l).1.isEmpty := by
  cases l with
  | nil => simp [digitSpan, digitSpan_fst_nil r hr]
  | cons c rest => by_cases hc : c.isDigit <;> simp [digitSpan, hc]

theorem extendsNum_head (s : List Char) (h : extendsNum s = false) :
    ∀ c, s.head? = some c → c.isDigit = false := by
  intro c hc
  cases s with
  | nil => simp at hc
  | cons c0 rest =>
    simp at hc
    subst hc
    cases rest with
    | nil => simpa [extendsNum] using h
    | cons d rest2 =>
      simp only [extendsNum, Bool.or_eq_false_iff] at h
      exact h.1

theorem extendsNum_dot (rest : List Char) (h : extendsNum ('.' :: rest) = false) :
    ∀ c, rest.head? = some c → c.isDigit = false := by
  intro c hc
  cases rest with
  | nil => simp at hc
  | cons d rest2 =>
    have hd : d = c := by simpa using hc
    have h2 : (('.' : Char).isDigit || (('.' : Char) == '.' && d.isDigit)) = false := h
    have hdot : (('.' : Char).isDigit) = false := by decide
    rw [hdot] at h2
    rw [← hd]
    simpa using h2

theorem dotNumTailF_stop (s : List Char) (h : extendsNum s = false) (f : Nat) :
    dotNumTailF f s = [] := by
  cases f with
  | zero => rfl
  | succ f =>
    cases s with
    | nil => rfl
    | cons c rest =>
      have hcond : ¬(c = '.' ∧ (digitSpan rest).1.isEmpty = false) := by
        rintro ⟨hc, hne⟩
        subst hc
        rw [digitSpan_fst_nil rest (extendsNum_dot rest h)] at hne
        simp at hne
      have hstep : dotNumTailF (f + 1) (c :: rest) =
          if c = '.' ∧ (digitSpan rest).1.isEmpty = false then
            c :: (digitSpan rest).1 ++ dotNumTailF f (digitSpan rest).2
          else [] := rfl
      rw [hstep, if_neg hcond]

theorem dots_head (comps : List (List Char)) (suffix : List Char)
    (hsuf : extendsNum suffix = false) :
    ∀ c, (dotsList comps ++ suffix).head? = some c → c.isDigit = false := by
  cases comps with
  | nil => simpa [dotsList] using extendsNum_head suffix hsuf
  | cons d rest =>
    intro c hc
    simp [dotsList] at hc
    subst hc
    decide

theorem dotNumTailF_dots (comps : List (List Char)) :
    ∀ (f : Nat) (suffix : List Char), comps.length ≤ f →
      (∀ d ∈ comps, d.isEmpty = false ∧ d.all Char.isDigit = true) →
      extendsNum suffix = false →
      dotNumTailF f (dotsList comps ++ suffix) = dotsList comps := by
  induction comps with
  | nil =>
    intro f suffix _ _ hsuf
    simpa [dotsList] using dotNumTailF_stop suffix hsuf f
  | cons d comps ih =>
    intro f suffix hf hall hsuf
    obtain ⟨f, rfl⟩ : ∃ g, f = g + 1 := by
      cases f with
      | zero => simp at hf
      | succ g => exact ⟨g, rfl⟩
    obtain ⟨hd1, hd2⟩ := hall d (by simp)
    have hrest : ∀ x ∈ comps, x.isEmpty = false ∧ x.all Char.isDigit = true :=
      fun x hx => hall x (by simp [hx])
    have hspan : digitSpan (d ++ (dotsList comps ++ suffix)) =
        (d, dotsList comps ++ suffix) :=
      digitSpan_append d (dotsList comps ++ suffix) hd2 (dots_head comps suffix hsuf)
    have harr : dotsList (d :: comps) ++ suffix =
        '.' :: (d ++ (dotsList comps ++ suffix)) := by
      simp [dotsList]
    have hs1 : (digitSpan (d ++ (dotsList comps ++ suffix))).1 = d := by rw [hspan]
    have hs2 : (digitSpan (d ++ (dotsList comps ++ suffix))).2 =
        dotsList comps ++ suffix := by rw [hspan]
    have hstep : dotNumTailF (f + 1) ('.' :: (d ++ (dotsList comps ++ suffix))) =
        if ('.' : Char) = '.' ∧
            (digitSpan (d ++ (dotsList comps ++ suffix))).1.isEmpty = false then
          '.' :: (digitSpan (d ++ (dotsList comps ++ suffix))).1 ++
            dotNumTailF f (digitSpan (d ++ (dotsList comps ++ suffix))).2
        else [] := rfl
    rw [harr, hstep, if_pos ⟨rfl, by rw [hs1]; exact hd1⟩, hs1, hs2]
    rw [ih f suffix (by simpa using hf) hrest hsuf]
    simp [dotsList]

theorem dotsList_length (comps : List (List Char)) :
    comps.length ≤ (dotsList comps).length := by
  induction comps with
  | nil => simp [dotsList]
  | cons d comps ih =>
    simp only [dotsList, List.length_cons, List.length_append]
    omega

theorem dotNumTail_dots (comps : List (List Char)) (suffix : List Char)
    (hall : ∀ d ∈ comps, d.isEmpty = false ∧ d.all Char.isDigit = true)
    (hsuf : extendsNum suffix = false) :
    dotNumTail (dotsList comps ++ suffix) = dotsList comps := by
  refine dotNumTailF_dots comps _ suffix ?_ hall hsuf
  have h1 := dotsList_length comps
  have h2 : (dotsList comps ++ suffix).length =
      (dotsList comps).length + suffix.length := by simp
  omega

theorem zstdExtractVersion_skip (pre rest : List Char) (h : hasVDigit pre = false)
    (hr : ∀ c, rest.head? = some c → c.isDigit = false) :
    zstdExtractVersion (pre ++ rest) = zstdExtractVersion rest := by
  induction pre with
  | nil => rfl
  | cons c pre ih =>
    have hsplit : ¬(c = 'v' ∧ (digitSpan pre).1.isEmpty = false) ∧
        hasVDigit pre = false := by
      by_cases hcond : c = 'v' ∧ (digitSpan pre).1.isEmpty = false
      · rw [hasVDigit, if_pos hcond] at h
        exact absurd h (by simp)
      · rw [hasVDigit, if_neg hcond] at h
        exact ⟨hcond, h⟩
    have hcond2 : ¬(c = 'v' ∧ (digitSpan (pre ++ rest)).1.isEmpty = false) := by
      rintro ⟨hv, hne⟩
      rw [digitSpan_isEmpty_append pre rest hr] at hne
      exact hsplit.1 ⟨hv, hne⟩
    rw [List.cons_append]
    simp only [zstdExtractVersion]
    rw [if_neg hcond2]
    exact ih hsplit.2

theorem zstdExtractVersion_first (pre ds : List Char) (comps : List (List Char))
    (suffix : List Char) (hpre : hasVDigit pre = false)
    (hd1 : ds.isEmpty = false) (hd2 : ds.all Char.isDigit = true)
    (hcomps : ∀ d ∈ comps, d.isEmpty = false ∧ d.all Char.isDigit = true)
    (hsuf : extendsNum suffix = false) :
    zstdExtractVersion (pre ++ 'v' :: (ds ++ (dotsList comps ++ suffix))) =
      some (ds ++ dotsList comps) := by
  rw [zstdExtractVersion_skip pre _ hpre (by intro c hc; simp at hc; subst hc; decide)]
  have hspan : digitSpan (ds ++ (dotsList comps ++ suffix)) =
      (ds, dotsList comps ++ suffix) :=
    digitSpan_append ds _ hd2 (dots_head comps suffix hsuf)
  have hs1 : (digitSpan (ds ++ (dotsList comps ++ suffix))).1 = ds := by rw [hspan]
  have hs2 : (digitSpan (ds ++ (dotsList comps ++ suffix))).2 =
      dotsList comps ++ suffix := by rw [hspan]
  have hstep : zstdExtractVersion ('v' :: (ds ++ (dotsList comps ++ suffix))) =
      if ('v' : Char) = 'v' ∧
          (digitSpan (ds ++ (dotsList comps ++ suffix))).1.isEmpty = false then
        some ((digitSpan (ds ++ (dotsList comps ++ suffix))).1 ++
          dotNumTail (digitSpan (ds ++ (dotsList comps ++ suffix))).2)
      else zstdExtractVersion (ds ++ (dotsList comps ++ suffix)) := rfl
  rw [hstep, if_pos ⟨rfl, by rw [hs1]; exact hd1⟩, hs1, hs2]
  rw [dotNumTail_dots comps suffix hcomps hsuf]

theorem zstdExtractVersion_of_no_token (l : List Char) (h : hasVDigit l = false) :
    zstdExtractVersion l = none := by
  induction l with
  | nil => rfl
  | cons c rest ih =>
    by_cases hc : c = 'v' ∧ (digitSpan rest).1.isEmpty = false
    · simp [hasVDigit, hc] at h
    · rw [hasVDigit, if_neg hc] at h
      simp only [zstdExtractVersion]
      rw [if_neg hc]
      exact ih h

theorem splitOnDot_all (ds : List Char) (h : ds.all Char.isDigit = true) :
    splitOnDot ds = [ds] := by
  induction ds with
  | nil => rfl
  | cons c ds ih =>
    simp only [List.all_cons, Bool.and_eq_true] at h
    have hc : ¬c = '.' := fun e => absurd (e ▸ h.1) (by decide)
    simp [splitOnDot, hc, ih h.2]

theorem splitOnDot_append (ds r : List Char) (h : ds.all Char.isDigit = true) :
    splitOnDot (ds ++ '.' :: r) = ds :: splitOnDot r := by
  induction ds with
  | nil => simp [splitOnDot]
  | cons c ds ih =>
    simp only [List.all_cons, Bool.and_eq_true] at h
    have hc : ¬c = '.' := fun e => absurd (e ▸ h.1) (by decide)
    simp [splitOnDot, hc, ih h.2]

theorem validNumId_parts (l : List Char) (h : validNumId l = true) :
    l.isEmpty = false ∧ l.all Char.isDigit = true := by
  simp only [validNumId, Bool.and_eq_true, Bool.not_eq_true'] at h
  exact ⟨h.1.1.1, h.1.1.2⟩

theorem splitOnDot_dots (comps : List (List Char)) :
    ∀ ds : List Char, ds.all Char.isDigit = true →
      (∀ d ∈ comps, d.all Char.isDigit = true) →
      splitOnDot (ds ++ dotsList comps) = ds :: comps := by
  induction comps with
  | nil =>
    intro ds hds _
    simpa [dotsList] using splitOnDot_all ds hds
  | cons d comps ih =>
    intro ds hds hall
    have harr : ds ++ dotsList (d :: comps) = ds ++ '.' :: (d ++ dotsList comps) := by
      simp [dotsList]
    rw [harr, splitOnDot_append ds _ hds]
    rw [ih d (hall d (by simp)) (fun x hx => hall x (by simp [hx]))]

theorem parseSemver_dots_two (ds bs cs : List Char)
    (hds : ds.all Char.isDigit = true) (hbs : bs.all Char.isDigit = true)
    (hcs : cs.all Char.isDigit = true) :
    parseSemver (ds ++ dotsList [bs, cs]) =
      if validNumId ds && validNumId bs && validNumId cs then
        some (digitsToNat ds, digitsToNat bs, digitsToNat cs)
      else none := by
  have hsplit := splitOnDot_dots [bs, cs] ds hds (by
    intro x hx
    simp at hx
    rcases hx with h | h <;> subst h <;> assumption)
  simp [parseSemver, hsplit]

theorem parseSemver_dots_ne (ds : List Char) (comps : List (List Char))
    (hds : ds.all Char.isDigit = true)
    (hall : ∀ d ∈ comps, d.all Char.isDigit = true)
    (hlen : comps.length ≠ 2) :
    parseSemver (ds ++ dotsList comps) = none := by
  have hsplit := splitOnDot_dots comps ds hds hall
  rcases comps with _ | ⟨b, _ | ⟨c, _ | ⟨d, rest⟩⟩⟩
  · simp [parseSemver, hsplit]
  · simp [parseSemver, hsplit]
  · exact absurd rfl hlen
  · simp [parseSemver, hsplit]

/-! ### Claim theorems -/

/-- Claim C5: on platform `win32` the negotiator returns `gzip` for every
configured preference and every probe outcome, and spawns no probe
subprocesses (empty probe trace). -/
theorem windows_always_gzip (pref : String) (lz4Exec zstdExec : ExecOutcome) :
    getTarCompressionMethod ⟨"win32", pref, lz4Exec, zstdExec⟩ =
      .ok (CompressionMethod.GZIP, []) := by
  simp [getTarCompressionMethod]

/-- Claim C6: on a non-Windows platform, a configured preference of `gzip`
yields `gzip` with no probe subprocesses spawned, for every probe outcome. -/
theorem gzip_preference_short_circuits (platform : String) (lz4Exec zstdExec : ExecOutcome)
    (h : platform ≠ "win32") :
    getTarCompressionMethod ⟨platform, "gzip", lz4Exec, zstdExec⟩ =
      .ok (CompressionMethod.GZIP, []) := by
  simp [getTarCompressionMethod, h]

/-- Witness for claim C6 at a concrete environment. -/
theorem gzip_preference_short_circuits_witness :
    getTarCompressionMethod ⟨"linux", "gzip", ExecOutcome.failure, ExecOutcome.failure⟩ =
      .ok (CompressionMethod.GZIP, []) :=
  gzip_preference_short_circuits "linux" ExecOutcome.failure ExecOutcome.failure (by decide)

/-- Claim C7: on a non-Windows platform, whenever the lz4 probe output carries
the `lz4 command line interface` signature (after trimming and lowercasing)
and the configured preference is `lz4`, negotiation returns `lz4` after the
lz4 probe alone — for every output text (so independently of any version
number in it) and every zstd probe outcome. -/
theorem lz4_preference_selects_lz4 (platform : String) (stdout : List Char) (code : Int)
    (zstdExec : ExecOutcome) (h : platform ≠ "win32")
    (hsig : hasLz4Sig (jsTrim stdout) = true) :
    getTarCompressionMethod ⟨platform, "lz4", ExecOutcome.success stdout code, zstdExec⟩ =
      .ok (CompressionMethod.LZ4, [ProbeCall.lz4call]) := by
  have hlz : possibleWithLz4 (ExecOutcome.success stdout code) = some CompressionMethod.LZ4 := by
    simp [possibleWithLz4, hsig]
  simp [getTarCompressionMethod, h, hlz]

/-- Witness for claim C7 at a realistic lz4 banner. -/
theorem lz4_preference_selects_lz4_witness :
    getTarCompressionMethod ⟨"darwin", "lz4",
      ExecOutcome.success
        ("*** LZ4 command line interface 64-bits v1.9.4, by Yann Collet ***".toList) 0,
      ExecOutcome.failure⟩ = .ok (CompressionMethod.LZ4, [ProbeCall.lz4call]) :=
  lz4_preference_selects_lz4 "darwin"
    ("*** LZ4 command line interface 64-bits v1.9.4, by Yann Collet ***".toList) 0
    ExecOutcome.failure (by decide) (by decide)

/-- Claim C9: on a non-Windows platform with the preference unset (empty
string) and both probes reporting their tool unavailable, negotiation returns
`gzip` (after running both probes). -/
theorem no_tools_fallback_gzip (platform : String) (lz4Exec zstdExec : ExecOutcome)
    (h : platform ≠ "win32")
    (hlz4 : possibleWithLz4 lz4Exec = none)
    (hzstd : possibleWithZstd zstdExec = .ok none) :
    getTarCompressionMethod ⟨platform, "", lz4Exec, zstdExec⟩ =
      .ok (CompressionMethod.GZIP, [ProbeCall.lz4call, ProbeCall.zstdcall]) := by
  simp [getTarCompressionMethod, h, hlz4, hzstd]

/-- Witness for claim C9: both probe commands fail to spawn. -/
theorem no_tools_fallback_gzip_witness :
    getTarCompressionMethod ⟨"linux", "", ExecOutcome.failure, ExecOutcome.failure⟩ =
      .ok (CompressionMethod.GZIP, [ProbeCall.lz4call, ProbeCall.zstdcall]) :=
  no_tools_fallback_gzip "linux" ExecOutcome.failure ExecOutcome.failure
    (by decide) rfl rfl

/-- Claim C10: on a non-Windows platform the configured preference influences
the outcome only through the two equality tests against `gzip` and `lz4`:
any two preferences that are neither yield identical negotiation results
(probe trace included) on identical probe outcomes; moreover with such a
preference `lz4` is never chosen — if the zstd probe reports nothing, the
result is `gzip` no matter what the lz4 probe reported. -/
theorem preference_noninterference :
    (∀ platform p1 p2 lz4Exec zstdExec,
      platform ≠ "win32" → p1 ≠ "gzip" → p1 ≠ "lz4" → p2 ≠ "gzip" → p2 ≠ "lz4" →
      getTarCompressionMethod ⟨platform, p1, lz4Exec, zstdExec⟩ =
        getTarCompressionMethod ⟨platform, p2, lz4Exec, zstdExec⟩)
  ∧ (∀ platform pref lz4Exec zstdExec,
      platform ≠ "win32" → pref ≠ "gzip" → pref ≠ "lz4" →
      possibleWithZstd zstdExec = .ok none →
      getTarCompressionMethod ⟨platform, pref, lz4Exec, zstdExec⟩ =
        .ok (CompressionMethod.GZIP, [ProbeCall.lz4call, ProbeCall.zstdcall])) := by
  constructor
  · intro platform p1 p2 lz4Exec zstdExec hw h1g h1l h2g h2l
    simp [getTarCompressionMethod, hw, h1g, h1l, h2g, h2l]
  · intro platform pref lz4Exec zstdExec hw hg hl hz
    simp [getTarCompressionMethod, hw, hg, hl, hz]

/-- Witness for claim C10: unset preference and `zstd` preference coincide. -/
theorem preference_noninterference_witness :
    getTarCompressionMethod ⟨"linux", "", ExecOutcome.failure, ExecOutcome.failure⟩ =
      getTarCompressionMethod ⟨"linux", "zstd", ExecOutcome.failure, ExecOutcome.failure⟩ :=
  preference_noninterference.1 "linux" "" "zstd" ExecOutcome.failure ExecOutcome.failure
    (by decide) (by decide) (by decide) (by decide) (by decide)

/-- The per-method compression flags exactly as the claim states them. -/
def claimedCompressionFlags : CompressionMethod → List String
  | .GZIP => ["-z"]
  | .ZSTD_WITHOUT_LONG => ["--use-compress-program", "zstd -T0"]
  | .ZSTD => ["--use-compress-program", "zstd -T0 --long=30"]
  | .LZ4 => ["--use-compress-program", "lz4 --fast -BD"]

/-- The per-method decompression flags exactly as the claim states them. -/
def claimedDecompressionFlags : CompressionMethod → List String
  | .GZIP => ["-z"]
  | .ZSTD_WITHOUT_LONG => ["--use-compress-program", "zstd -d"]
  | .ZSTD => ["--use-compress-program", "zstd -d --long=30"]
  | .LZ4 => ["--use-compress-program", "lz4 -d"]

/-- Claim C8: for every method, the creation argument vector is the constant
flags `-c --posix -P -f <archivePath> -C <workingDir> <paths>` plus exactly
the claimed per-method compression flags, the extraction argument vector is
the constant flags `-x -P -f <archivePath> -C <workingDir>` plus exactly the
claimed per-method decompression flags, and `extractTar` on a known method
tag invokes `tar` with exactly that extraction vector. -/
theorem tar_invocation_flags :
    (∀ m archivePath cwd paths, createTarArgs m archivePath cwd paths =
      ["-c"] ++ claimedCompressionFlags m ++
        ["--posix", "-P", "-f", archivePath, "-C", cwd] ++ paths)
  ∧ (∀ m archivePath cwd, extractTarArgs m archivePath cwd =
      ["-x"] ++ claimedDecompressionFlags m ++ ["-P", "-f", archivePath, "-C", cwd])
  ∧ (∀ m archivePath cwd run, extractTar (CompressionMethod.str m) archivePath cwd run =
      execExec "tar" (extractTarArgs m archivePath cwd) run) := by
  refine ⟨?_, ?_, ?_⟩ <;> intro m <;> cases m <;> intros <;> rfl

/-- Claim C2 (amended): an unknown method tag produces no decompression flags
at all — `extractTar` fails before spawning any process — but the failure is
the generic `TypeError` from spreading the `undefined` flag list, not a
labeled `unrecognized compression method` error. -/
theorem unknown_method_fails_fast (tag archivePath cwd : String) (run : TarRun)
    (h1 : tag ≠ "gzip") (h2 : tag ≠ "zstd (without long)")
    (h3 : tag ≠ "zstd") (h4 : tag ≠ "lz4") :
    buildDecompressionArgsRt tag = none ∧
    extractTar tag archivePath cwd run = .error spreadTypeErrorMsg := by
  have hb : buildDecompressionArgsRt tag = none := by
    simp [buildDecompressionArgsRt, h1, h2, h3, h4]
  exact ⟨hb, by simp [extractTar, hb]⟩

/-- Counterexample for claim C2 as stated: at the unknown tag `brotli`,
`extractTar` fails with the spread `TypeError`, whose text does not contain
`unrecognized compression method`. -/
theorem unknown_method_counterexample :
    extractTar "brotli" "cache.tar" "." ⟨0, ""⟩ = .error spreadTypeErrorMsg ∧
    containsSeq ("unrecognized compression method".toList) spreadTypeErrorMsg.toList = false := by
  exact ⟨rfl, by decide⟩

/-- Witness for claim C2 (amended) at the unknown tag `lzma`. -/
theorem unknown_method_fails_fast_witness :
    buildDecompressionArgsRt "lzma" = none ∧
    extractTar "lzma" "cache.tar" "." ⟨0, ""⟩ = .error spreadTypeErrorMsg :=
  unknown_method_fails_fast "lzma" "cache.tar" "." ⟨0, ""⟩
    (by decide) (by decide) (by decide) (by decide)

/-- Claim C4 (amended): whenever the `tar` process exits non-zero, `createTar`
(provided negotiation succeeded) and `extractTar` (on a known tag) fail with
the exec layer's generic process-failure error, which names the tool and the
exit code; no dedicated error type exists and the process's diagnostic output
is not part of the error. -/
theorem tar_failure_generic_error :
    (∀ env archivePath paths cwd run, run.exitCode ≠ 0 →
      (∃ m trace, getTarCompressionMethod env = .ok (m, trace)) →
      createTar env archivePath paths cwd run = .error (execFailMsg "tar" run.exitCode))
  ∧ (∀ tag archivePath cwd run, run.exitCode ≠ 0 →
      (∃ args, buildDecompressionArgsRt tag = some args) →
      extractTar tag archivePath cwd run = .error (execFailMsg "tar" run.exitCode)) := by
  constructor
  · rintro env archivePath paths cwd run hne ⟨m, trace, hok⟩
    simp [createTar, hok, execExec, hne]
  · rintro tag archivePath cwd run hne ⟨args, hargs⟩
    simp [extractTar, hargs, execExec, hne]

/-- Counterexample for claim C4 as stated: `tar` exits 2 writing
`tar: boom` to its streams; `createTar` fails with the generic message, which
carries the exit code but not the diagnostic output. -/
theorem tar_failure_counterexample :
    createTar ⟨"win32", "", ExecOutcome.failure, ExecOutcome.failure⟩ "cache.tar" ["data"] "."
        ⟨2, "tar: boom"⟩ = .error "The process tar failed with exit code 2" ∧
    containsSeq ("tar: boom".toList)
      ("The process tar failed with exit code 2").toList = false := by
  exact ⟨rfl, by decide⟩

/-- Witness for claim C4 (amended) at a concrete failing run. -/
theorem tar_failure_generic_error_witness :
    createTar ⟨"win32", "", ExecOutcome.failure, ExecOutcome.failure⟩ "cache.tar" ["data"] "."
        ⟨1, ""⟩ = .error (execFailMsg "tar" 1) :=
  tar_failure_generic_error.1 ⟨"win32", "", ExecOutcome.failure, ExecOutcome.failure⟩
    "cache.tar" ["data"] "." ⟨1, ""⟩ (by decide) ⟨CompressionMethod.GZIP, [], rfl⟩

/-- Claim C3 (code bug): contrary to the claim that no probe problem ever
aborts negotiation, a zstd probe that resolves with a signature-bearing banner
whose first `v<digits>` token is not a full three-component semver (here
`v1.4`) makes `semver.lt` — which sits outside the probe's `.catch` — throw,
and the error propagates out of `getTarCompressionMethod`. -/
theorem probe_crash_aborts_negotiation :
    getTarCompressionMethod ⟨"linux", "",
      ExecOutcome.failure,
      ExecOutcome.success ("zstd command line interface v1.4".toList) 0⟩ =
      .error "Invalid Version: 1.4" := by
  rfl

/-- Claim C1 (amended): for a resolved zstd probe, writing the conditions on
the trimmed stdout:
(1) without the CLI signature the probe yields no method;
(2) with the signature but no `v<digit>` token anywhere, it yields
`zstd (without long)`;
(3) with the signature, when the first token — a `v` after a prefix free of
`v<digit>` occurrences, followed by digit groups and then any trailing text
that does not extend the greedy match — is a three-component
`v<as>.<bs>.<cs>` with valid numeric identifiers, it yields
`zstd (without long)` exactly when `(as, bs, cs)` is lexicographically below
`(1, 3, 2)`, and `zstd` otherwise;
(4) when that first token has any number of components other than three
(`v1`, `v1.3`, `v1.2.3.4`, ...; the token is `as ++ dotsList comps` and
`comps.length ≠ 2`), the embedded `semver.lt` throws `Invalid Version` and
the probe rejects instead of yielding a method;
(5) likewise when it has exactly three components but some identifier is not
a valid semver numeric identifier (leading zero, or above
`Number.MAX_SAFE_INTEGER`). -/
theorem zstd_probe_characterization :
    (∀ stdout code, hasZstdSig (jsTrim stdout) = false →
      possibleWithZstd (ExecOutcome.success stdout code) = .ok none)
  ∧ (∀ stdout code, hasZstdSig (jsTrim stdout) = true →
      hasVDigit (jsTrim stdout) = false →
      possibleWithZstd (ExecOutcome.success stdout code) =
        .ok (some CompressionMethod.ZSTD_WITHOUT_LONG))
  ∧ (∀ stdout pre as bs cs suffix code,
      jsTrim stdout = pre ++ 'v' :: (as ++ '.' :: (bs ++ '.' :: (cs ++ suffix))) →
      hasZstdSig (jsTrim stdout) = true →
      hasVDigit pre = false → extendsNum suffix = false →
      validNumId as = true → validNumId bs = true → validNumId cs = true →
      possibleWithZstd (ExecOutcome.success stdout code) =
        .ok (some (if tripleLt (digitsToNat as, digitsToNat bs, digitsToNat cs) (1, 3, 2)
                   then CompressionMethod.ZSTD_WITHOUT_LONG else CompressionMethod.ZSTD)))
  ∧ (∀ stdout pre as comps suffix code,
      jsTrim stdout = pre ++ 'v' :: (as ++ (dotsList comps ++ suffix)) →
      hasZstdSig (jsTrim stdout) = true →
      hasVDigit pre = false → extendsNum suffix = false →
      as.isEmpty = false → as.all Char.isDigit = true →
      (∀ d ∈ comps, d.isEmpty = false ∧ d.all Char.isDigit = true) →
      comps.length ≠ 2 →
      possibleWithZstd (ExecOutcome.success stdout code) =
        .error (invalidVersionMsg (as ++ dotsList comps)))
  ∧ (∀ stdout pre as bs cs suffix code,
      jsTrim stdout = pre ++ 'v' :: (as ++ '.' :: (bs ++ '.' :: (cs ++ suffix))) →
      hasZstdSig (jsTrim stdout) = true →
      hasVDigit pre = false → extendsNum suffix = false →
      as.isEmpty = false → as.all Char.isDigit = true →
      bs.isEmpty = false → bs.all Char.isDigit = true →
      cs.isEmpty = false → cs.all Char.isDigit = true →
      (validNumId as && validNumId bs && validNumId cs) = false →
      possibleWithZstd (ExecOutcome.success stdout code) =
        .error (invalidVersionMsg (as ++ '.' :: (bs ++ '.' :: cs)))) := by
  refine ⟨?_, ?_, ?_, ?_, ?_⟩
  · intro stdout code hsig
    simp [possibleWithZstd, hsig]
  · intro stdout code hsig hnotok
    have hex := zstdExtractVersion_of_no_token (jsTrim stdout) hnotok
    simp [possibleWithZstd, hsig, hex]
  · intro stdout pre as bs cs suffix code hdec hsig hpre hsuf ha hb hc
    obtain ⟨ha1, ha2⟩ := validNumId_parts as ha
    obtain ⟨hb1, hb2⟩ := validNumId_parts bs hb
    obtain ⟨hc1, hc2⟩ := validNumId_parts cs hc
    have hform : pre ++ 'v' :: (as ++ '.' :: (bs ++ '.' :: (cs ++ suffix))) =
        pre ++ 'v' :: (as ++ (dotsList [bs, cs] ++ suffix)) := by
      simp [dotsList]
    have hcompsOk : ∀ d ∈ [bs, cs], d.isEmpty = false ∧ d.all Char.isDigit = true := by
      intro d hd
      simp at hd
      rcases hd with h | h <;> subst h
      · exact ⟨hb1, hb2⟩
      · exact ⟨hc1, hc2⟩
    have hex : zstdExtractVersion (jsTrim stdout) = some (as ++ dotsList [bs, cs]) := by
      rw [hdec, hform]
      exact zstdExtractVersion_first pre as [bs, cs] suffix hpre ha1 ha2 hcompsOk hsuf
    have hparse : parseSemver (as ++ dotsList [bs, cs]) =
        some (digitsToNat as, digitsToNat bs, digitsToNat cs) := by
      rw [parseSemver_dots_two as bs cs ha2 hb2 hc2]
      simp [ha, hb, hc]
    have hconst : parseSemver ZSTD_WITHOUT_LONG_VERSION = some (1, 3, 2) := by decide
    have hsem : semverLt (as ++ dotsList [bs, cs]) ZSTD_WITHOUT_LONG_VERSION =
        .ok (tripleLt (digitsToNat as, digitsToNat bs, digitsToNat cs) (1, 3, 2)) := by
      simp [semverLt, hparse, hconst]
    simp only [possibleWithZstd, hsig, if_true, hex, hsem]
    cases htl : tripleLt (digitsToNat as, digitsToNat bs, digitsToNat cs) (1, 3, 2) <;>
      simp [htl]
  · intro stdout pre as comps suffix code hdec hsig hpre hsuf ha1 ha2 hcomps hlen
    have hex : zstdExtractVersion (jsTrim stdout) = some (as ++ dotsList comps) := by
      rw [hdec]
      exact zstdExtractVersion_first pre as comps suffix hpre ha1 ha2 hcomps hsuf
    have hparse : parseSemver (as ++ dotsList comps) = none :=
      parseSemver_dots_ne as comps ha2 (fun d hd => (hcomps d hd).2) hlen
    have hsem : semverLt (as ++ dotsList comps) ZSTD_WITHOUT_LONG_VERSION =
        .error (invalidVersionMsg (as ++ dotsList comps)) := by
      simp [semverLt, hparse]
    simp [possibleWithZstd, hsig, hex, hsem]
  · intro stdout pre as bs cs suffix code hdec hsig hpre hsuf ha1 ha2 hb1 hb2 hc1 hc2 hinv
    have hform : pre ++ 'v' :: (as ++ '.' :: (bs ++ '.' :: (cs ++ suffix))) =
        pre ++ 'v' :: (as ++ (dotsList [bs, cs] ++ suffix)) := by
      simp [dotsList]
    have hcompsOk : ∀ d ∈ [bs, cs], d.isEmpty = false ∧ d.all Char.isDigit = true := by
      intro d hd
      simp at hd
      rcases hd with h | h <;> subst h
      · exact ⟨hb1, hb2⟩
      · exact ⟨hc1, hc2⟩
    have hex : zstdExtractVersion (jsTrim stdout) = some (as ++ dotsList [bs, cs]) := by
      rw [hdec, hform]
      exact zstdExtractVersion_first pre as [bs, cs] suffix hpre ha1 ha2 hcompsOk hsuf
    have hparse : parseSemver (as ++ dotsList [bs, cs]) = none := by
      rw [parseSemver_dots_two as bs cs ha2 hb2 hc2]
      simp [hinv]
    have hsem : semverLt (as ++ dotsList [bs, cs]) ZSTD_WITHOUT_LONG_VERSION =
        .error (invalidVersionMsg (as ++ dotsList [bs, cs])) := by
      simp [semverLt, hparse]
    have hmsg : as ++ dotsList [bs, cs] = as ++ '.' :: (bs ++ '.' :: cs) := by
      simp [dotsList]
    rw [← hmsg]
    simp [possibleWithZstd, hsig, hex, hsem]

/-- Counterexample for claim C1 as stated: the banner
`zstd command line interface v1.3` has the signature and a version token
`v1.3` that any semantic reading places below `1.3.2`, so the claim demands
`zstd (without long)`; the probe instead rejects with `Invalid Version`. -/
theorem zstd_partial_version_counterexample :
    possibleWithZstd (ExecOutcome.success ("zstd command line interface v1.3".toList) 0) =
      .error "Invalid Version: 1.3" ∧
    possibleWithZstd (ExecOutcome.success ("zstd command line interface v1.3".toList) 0) ≠
      .ok (some CompressionMethod.ZSTD_WITHOUT_LONG) := by
  have h0 : possibleWithZstd (ExecOutcome.success ("zstd command line interface v1.3".toList) 0) =
      .error "Invalid Version: 1.3" := rfl
  exact ⟨h0, by rw [h0]; simp⟩

/-- Witness for claim C1 (amended), instantiating the three-component case at
a realistic full banner with text after the version token. -/
theorem zstd_probe_characterization_witness :
    possibleWithZstd (ExecOutcome.success
        ("*** zstd command line interface 64-bits v1.4.4, by Yann Collet ***".toList) 0) =
      .ok (some CompressionMethod.ZSTD) := by
  have h := zstd_probe_characterization.2.2.1
    ("*** zstd command line interface 64-bits v1.4.4, by Yann Collet ***".toList)
    ("*** zstd command line interface 64-bits ".toList) ['1'] ['4'] ['4']
    (", by Yann Collet ***".toList) 0
    (by decide) (by decide) (by decide) (by decide) (by decide) (by decide) (by decide)
  exact h.trans (by rfl)

end GcsCache
